import Mathlib

/-!
# ThyMer: the user-account resource `backend/routes/api/user.js`

A shallow embedding of the Express router of `user.js`: the upload middleware,
the express-validator chains of `POST /`, the registration handler and the four
pass-through handlers (`GET /`, `DELETE /delete-user/:id`,
`PUT /update-user/:id`, `PUT /update-user`).

Library calls (`User.findOne`, `bcrypt.genSalt`, `jwt.sign`, ...) are fields of
the records `Libs` and `StoreOps`: each field gives the outcome of the call, a
value or a thrown error.  A handler returns an `Outcome`: the response sent (if
any), the ordered list of collaborator calls it made, the store state it leaves,
what it logged, and any error that left the handler.

A JavaScript value that may be `undefined` is an `Option String`, `none` being
`undefined`.
-/

namespace ThyMer

/-! ## Data model -/

/-- Modelled from the spec: the Mongoose model `../../models/User` is not part of
the sources.  Its fields follow the Account of the data model (identifier, name,
email, avatar, credentialHash stored in the field `password`, profile image
path) and are the five fields `new User` receives in `router.post` plus the
document identifier.  `name` and `email` are `none` when `new User` received
`undefined` for them. -/
structure User where
  id : String
  name : Option String
  email : Option String
  avatar : String
  password : String
  image : String
deriving DecidableEq, Repr

/-- A record of request keys, used for `req.body` and for the other request
locations: every key is either absent (`none`) or carries a text value.  Only
the keys of the `User` schema are kept. -/
structure Body where
  id : Option String := none
  name : Option String := none
  email : Option String := none
  avatar : Option String := none
  password : Option String := none
  image : Option String := none
deriving DecidableEq, Repr

/-- Errors raised by collaborators.  `duplicateKey`, `notFound` and
`immutableId` are the store failures of the AccountStore contract; `other` is
any other thrown error with its message. -/
inductive Err where
  | duplicateKey
  | notFound
  | immutableId
  | other (msg : String)
deriving DecidableEq, Repr

/-- The text of `err.message`. -/
def Err.message : Err → String
  | .duplicateKey => "E11000 duplicate key error"
  | .notFound => "not found"
  | .immutableId => "immutable field _id"
  | .other m => m

/-- The text of `"" + err`: the error's name and message. -/
def Err.text : Err → String
  | .duplicateKey => "MongoError: E11000 duplicate key error"
  | .notFound => "Error: not found"
  | .immutableId => "MongoError: immutable field _id"
  | .other m => "Error: " ++ m

/-! ## File upload (multer) -/

/-- The file part sent in the field `image` of a multipart request, as multer
sees it: the declared mimetype, the original name and the size in bytes. -/
structure Upload where
  mimetype : String
  originalname : String
  size : Nat
deriving DecidableEq, Repr

/-- The value of `req.file` after `upload.single`: the stored file. -/
structure StoredFile where
  path : String
deriving DecidableEq, Repr

/-- `fileFilter`: a file is accepted exactly when its mimetype is `image/jpeg`
or `image/png`. -/
def fileFilter (file : Upload) : Bool :=
  if file.mimetype = "image/jpeg" ∨ file.mimetype = "image/png" then true else false

/-- The `filename` callback of `multer.diskStorage`: the ISO timestamp `now`
followed by the original name. -/
def storageFilename (now : String) (file : Upload) : String :=
  now ++ file.originalname

/-- The option `limits.fileSize`: `1024 * 1024 * 5` bytes. -/
def fileSizeLimit : Nat :=
  1024 * 1024 * 5

/-- `upload.single('image')` on the optional file part.  A file rejected by
`fileFilter` is skipped and `req.file` stays undefined.  An accepted file larger
than `limits.fileSize` aborts the upload with the multer error `File too large`.
Any other accepted file is stored under the destination `./uploads/` and becomes
`req.file`. -/
def uploadSingle (now : String) (part : Option Upload) : Except Err (Option StoredFile) :=
  match part with
  | none => .ok none
  | some file =>
    if fileFilter file then
      if fileSizeLimit < file.size then .error (.other "File too large")
      else .ok (some { path := "uploads/" ++ storageFilename now file })
    else .ok none

/-! ## Validation (express-validator) -/

/-- The request locations in which `check` looks a field up, in the order of
express-validator. -/
inductive Location where
  | body
  | cookies
  | headers
  | params
  | query
deriving DecidableEq, Repr

/-- The name of a location as it appears in a validation error. -/
def Location.name : Location → String
  | .body => "body"
  | .cookies => "cookies"
  | .headers => "headers"
  | .params => "params"
  | .query => "query"

/-- The five locations `check` reads. -/
def locations : List Location :=
  [.body, .cookies, .headers, .params, .query]

/-- The parts of a request that validation reads: `req.body`, `req.cookies`,
`req.headers`, `req.params` and `req.query`. -/
structure Fields where
  body : Body := { }
  cookies : Body := { }
  headers : Body := { }
  params : Body := { }
  query : Body := { }
deriving DecidableEq, Repr

/-- The record of keys found at a location. -/
def Fields.at (f : Fields) : Location → Body
  | .body => f.body
  | .cookies => f.cookies
  | .headers => f.headers
  | .params => f.params
  | .query => f.query

/-- One entry of `errors.array()`. -/
structure ValidationError where
  value : Option String
  msg : String
  param : String
  location : String
deriving DecidableEq, Repr

/-- One validator of a chain, with the negation flag set by a preceding
`.not()`. -/
structure Validator where
  negated : Bool
  run : String → Bool

/-- A validation chain built by `check(param, message)`. -/
structure Chain where
  param : String
  message : String
  negateNext : Bool
  validators : List Validator

/-- The chain `check(param, message)` with no validator yet. -/
def check (param message : String) : Chain :=
  { param := param, message := message, negateNext := false, validators := [] }

/-- Appends a validator, consuming a pending `.not()`. -/
def Chain.add (c : Chain) (run : String → Bool) : Chain :=
  { c with negateNext := false,
           validators := c.validators ++ [{ negated := c.negateNext, run := run }] }

/-- The chain method `.not()`: negates the next validator. -/
def Chain.not (c : Chain) : Chain :=
  { c with negateNext := true }

/-- The chain method `.isEmpty()`: validator.js `isEmpty` with default options,
that is `str.length === 0`. -/
def Chain.isEmpty (c : Chain) : Chain :=
  c.add (fun str => str.length == 0)

/-- The chain method `.isEmail()`; the email syntax check of validator.js is the
argument `isEmail`. -/
def Chain.isEmail (isEmail : String → Bool) (c : Chain) : Chain :=
  c.add isEmail

/-- The number of characters that validator.js `isLength` counts: a surrogate
pair counts once, so the count is in Unicode code points; from validator.js
13.9.0 on the variation selectors U+FE0E and U+FE0F are left out, which the flag
`skipSelectors` switches on. -/
def isLengthCount (skipSelectors : Bool) (str : String) : Nat :=
  (str.toList.filter (fun c =>
    !(skipSelectors && (c.toNat == 0xFE0E || c.toNat == 0xFE0F)))).length

/-- The chain method `.isLength({min})`: the counted number of characters is at
least `min` (no `max` given). -/
def Chain.isLength (skipSelectors : Bool) (min : Nat) (c : Chain) : Chain :=
  c.add (fun str => decide (min ≤ isLengthCount skipSelectors str))

/-- The value of a key addressed by its name. -/
def Body.get (b : Body) (param : String) : Option String :=
  if param = "name" then b.name
  else if param = "email" then b.email
  else if param = "password" then b.password
  else if param = "avatar" then b.avatar
  else if param = "image" then b.image
  else if param = "_id" then b.id
  else none

/-- The string a validator receives: an absent value becomes the empty
string. -/
def toStr (value : Option String) : String :=
  value.getD ""

/-- An occurrence of a field in a request: where it was looked up and the value
found there. -/
structure FieldInstance where
  location : Location
  value : Option String
deriving DecidableEq, Repr

/-- The occurrences of a field that a chain validates.  The field is looked up
in every location; when some locations define it, all the defined occurrences
are kept; when none does, the first occurrence (the body, undefined) is kept for
error reporting. -/
def selectFields (f : Fields) (param : String) : List FieldInstance :=
  let instances : List FieldInstance :=
    locations.map (fun loc => { location := loc, value := (f.at loc).get param })
  let withValue := instances.filter (fun i => i.value.isSome)
  if withValue.isEmpty then instances.take 1 else withValue

/-- Runs one chain on the request: for every validator and every selected
occurrence of the field, a (possibly negated) failure adds an error. -/
def Chain.run (c : Chain) (f : Fields) : List ValidationError :=
  c.validators.flatMap (fun v =>
    (selectFields f c.param).filterMap (fun i =>
      let result := v.run (toStr i.value)
      if (if v.negated then result else !result) then
        some { value := i.value, msg := c.message, param := c.param,
               location := i.location.name }
      else none))

/-- The three chains of `router.post('/')`, in the order of the source. -/
def registerChecks (isEmail : String → Bool) (skipSelectors : Bool) : List Chain :=
  [ (check "name" "Name is required").not.isEmpty,
    (check "email" "Please include a valid email").isEmail isEmail,
    (check "password" "Please enter a password with 6 or more characters").isLength
      skipSelectors 6 ]

/-- The array of `validationResult(req)`: the errors of all chains, in chain
order. -/
def validationResult (chains : List Chain) (f : Fields) : List ValidationError :=
  chains.flatMap (fun c => c.run f)

/-- A value is blank after trimming: it consists of whitespace only.  This is
the wording of the Validator contract, stated independently of the code. -/
def blankAfterTrimming (str : String) : Bool :=
  str.toList.all Char.isWhitespace

/-! ## Collaborators -/

/-- The outcome of `jwt.sign(payload, secret, options, callback)`.  The callback
receives either the token, or an error; the error reaches the callback either
before `jwt.sign` returns (`errDuring`, the callback runs inside the caller's
`try`) or on a later tick (`errAfter`, the caller's `try` block has been
left). -/
inductive SignResult where
  | token (t : String)
  | errDuring (e : Err)
  | errAfter (e : Err)
deriving DecidableEq, Repr

/-- The libraries a request uses, as the outcomes they give during that
request: the email check of validator.js and whether its `isLength` leaves out
variation selectors, `gravatar.url` (its email argument may be undefined), the
identifier that `new User` generates, `bcrypt.genSalt`, `bcrypt.hash` on a
string, and `jwt.sign` applied to the payload's user id and the `expiresIn`
option (the secret is `process.env.JWT_TOKEN`). -/
structure Libs where
  isEmail : String → Bool
  skipSelectors : Bool
  gravatarUrl : Option String → String → String → String → String
  objectId : String
  genSalt : Nat → Except Err String
  hash : String → String → Except Err String
  sign : String → Nat → SignResult

/-- `bcrypt.hash(password, salt)`: an undefined password is refused with an
`Illegal arguments` error; a string is hashed by the library. -/
def bcryptHash (l : Libs) (password : Option String) (salt : String) : Except Err String :=
  match password with
  | none => .error (.other "Illegal arguments: undefined, string")
  | some plaintext => l.hash plaintext salt

/-- The operations of the `User` model on a store state `σ`.  Reads return the
document or nothing; `save` returns the new state; remove and update return the
callback's `data` and the new state. -/
structure StoreOps (σ : Type) where
  findOne : σ → Option String → Except Err (Option User)
  findById : σ → String → Except Err (Option User)
  save : σ → User → Except Err σ
  findByIdAndRemove : σ → String → Except Err (Option User × σ)
  findByIdAndUpdate : σ → String → Body → Except Err (Option User × σ)

/-- A call made by a handler to a collaborator, with its arguments. -/
inductive Call where
  | findOne (email : Option String)
  | gravatarUrl (email : Option String) (s r d : String)
  | genSalt (rounds : Nat)
  | hash (password : Option String) (salt : String)
  | save (doc : User)
  | jwtSign (userId : String) (expiresIn : Nat)
  | findById (id : String)
  | findByIdAndRemove (id : String)
  | findByIdAndUpdate (id : String) (set : Body)
deriving DecidableEq, Repr

/-- The argument of `res.json`, one constructor per shape the router builds:
`{errors: errors.array()}`, `{errors: [{msg}]}`, `{token}`, a document (or
`null`), `{msg: data}`, and a string. -/
inductive JsonValue where
  | errors (es : List ValidationError)
  | errorMsgs (msgs : List String)
  | token (t : String)
  | doc (u : Option User)
  | msgDoc (u : Option User)
  | str (s : String)
deriving DecidableEq, Repr

/-- A response body: sent by `res.json` (JSON-encoded) or by `res.send` with a
string (plain text). -/
inductive ResBody where
  | json (v : JsonValue)
  | text (s : String)
deriving DecidableEq, Repr

/-- The response sent to the caller. -/
structure Response where
  status : Nat
  body : ResBody
deriving DecidableEq, Repr

/-- The body was produced by `res.json`. -/
def Response.isJson (r : Response) : Bool :=
  match r.body with
  | .json _ => true
  | .text _ => false

/-- The Account documents serialised in a response body: the document of
`res.json(user)` and of `res.json({msg: data})`; the other shapes carry none. -/
def Response.accounts (r : Response) : List User :=
  match r.body with
  | .json (.doc (some u)) => [u]
  | .json (.msgDoc (some u)) => [u]
  | _ => []

/-- The `password` fields a response body carries. -/
def Response.exposedHashes (r : Response) : List String :=
  r.accounts.map (fun u => u.password)

/-- What a handler run leaves behind: the response (none when the handler never
answers), the collaborator calls in order, the store state, the lines written by
`console.error`, the error handed to `next`, and the error thrown out of a
callback with no handler around it. -/
structure Outcome (σ : Type) where
  response : Option Response
  calls : List Call
  store : σ
  logged : List String
  passedToNext : Option Err
  uncaught : Option Err

/-- A run that answers with `response` and hands no error on. -/
def Outcome.respond {σ : Type} (response : Response) (calls : List Call) (store : σ) :
    Outcome σ :=
  { response := some response, calls := calls, store := store, logged := [],
    passedToNext := none, uncaught := none }

/-! ## The handlers of `user.js` -/

/-- The request seen by the handler of `POST /`: the locations validation
reads, and `req.file` as left by `upload.single`. -/
structure RegisterRequest extends Fields where
  file : Option StoredFile := none
deriving DecidableEq, Repr

/-- The `catch` block of the registration handler: logs `err.message` and sends
status 500 with the text `Server error`. -/
def serverError {σ : Type} (calls : List Call) (store : σ) (err : Err) : Outcome σ :=
  { response := some { status := 500, body := .text "Server error" },
    calls := calls, store := store, logged := [err.message],
    passedToNext := none, uncaught := none }

/-- The variable `image` of the registration handler: the path of `req.file`
when a file is attached, the empty string otherwise. -/
def imagePath (file : Option StoredFile) : String :=
  match file with
  | some f => f.path
  | none => ""

/-- The callback given to `jwt.sign` and the code around it.  A token is sent as
`{token}`.  An error is rethrown by the callback: when the callback runs during
the `jwt.sign` call the `catch` block receives it; when it runs later, nothing
catches it and no response is sent. -/
def signAndRespond {σ : Type} (l : Libs) (calls : List Call) (store : σ) (userId : String) :
    Outcome σ :=
  let calls := calls ++ [Call.jwtSign userId 36000]
  match l.sign userId 36000 with
  | .token t => Outcome.respond { status := 200, body := .json (.token t) } calls store
  | .errDuring e => serverError calls store e
  | .errAfter e =>
    { response := none, calls := calls, store := store, logged := [],
      passedToNext := none, uncaught := some e }

/-- The handler of `router.post('/')` after the upload middleware.  `name`,
`email` and `password` are read from `req.body` and may be undefined.  The
document of `new User` gets its `password` overwritten by the hash before it is
saved, so it is built here with the hash. -/
def registerPost {σ : Type} (l : Libs) (st : StoreOps σ) (s : σ) (req : RegisterRequest) :
    Outcome σ :=
  let errors := validationResult (registerChecks l.isEmail l.skipSelectors) req.toFields
  if !errors.isEmpty then
    Outcome.respond { status := 400, body := .json (.errors errors) } [] s
  else
    let name := req.body.name
    let email := req.body.email
    let password := req.body.password
    let image := imagePath req.file
    match st.findOne s email with
    | .error e => serverError [Call.findOne email] s e
    | .ok (some _) =>
      Outcome.respond { status := 400, body := .json (.errorMsgs ["User already exists"]) }
        [Call.findOne email] s
    | .ok none =>
      let avatar := l.gravatarUrl email "200" "pg" "mm"
      let calls := [Call.findOne email, Call.gravatarUrl email "200" "pg" "mm", Call.genSalt 10]
      match l.genSalt 10 with
      | .error e => serverError calls s e
      | .ok salt =>
        let calls := calls ++ [Call.hash password salt]
        match bcryptHash l password salt with
        | .error e => serverError calls s e
        | .ok hashed =>
          let user : User :=
            { id := l.objectId, name := name, email := email, avatar := avatar,
              password := hashed, image := image }
          let calls := calls ++ [Call.save user]
          match st.save s user with
          | .error e => serverError calls s e
          | .ok s' => signAndRespond l calls s' user.id

/-- The route `POST /` with its middleware: `upload.single('image')` on the
optional file part received at time `now`, then the validation chains and the
handler.  An upload error is handed to `next` and neither the chains nor the
handler run. -/
def postRoot {σ : Type} (l : Libs) (st : StoreOps σ) (s : σ) (now : String) (fields : Fields)
    (part : Option Upload) : Outcome σ :=
  match uploadSingle now part with
  | .error e =>
    { response := none, calls := [], store := s, logged := [],
      passedToNext := some e, uncaught := none }
  | .ok file => registerPost l st s { toFields := fields, file := file }

/-- The handler of `GET /` for the authenticated caller `req.user.id`. -/
def getRoot {σ : Type} (st : StoreOps σ) (s : σ) (callerId : String) : Outcome σ :=
  match st.findById s callerId with
  | .ok user =>
    Outcome.respond { status := 200, body := .json (.doc user) } [Call.findById callerId] s
  | .error e =>
    Outcome.respond { status := 400, body := .json (.str ("Error: " ++ e.text)) }
      [Call.findById callerId] s

/-- The handler of `DELETE /delete-user/:id`. -/
def deleteUser {σ : Type} (st : StoreOps σ) (s : σ) (id : String) : Outcome σ :=
  match st.findByIdAndRemove s id with
  | .error e =>
    { response := none, calls := [Call.findByIdAndRemove id], store := s, logged := [],
      passedToNext := some e, uncaught := none }
  | .ok (data, s') =>
    Outcome.respond { status := 200, body := .json (.msgDoc data) } [Call.findByIdAndRemove id] s'

/-- The handler of `PUT /update-user/:id`. -/
def updateUserById {σ : Type} (st : StoreOps σ) (s : σ) (id : String) (body : Body) :
    Outcome σ :=
  match st.findByIdAndUpdate s id body with
  | .error e =>
    { response := none, calls := [Call.findByIdAndUpdate id body], store := s, logged := [],
      passedToNext := some e, uncaught := none }
  | .ok (data, s') =>
    { response := some { status := 200, body := .json (.doc data) },
      calls := [Call.findByIdAndUpdate id body], store := s',
      logged := ["User information updated!"], passedToNext := none, uncaught := none }

/-- The handler of `PUT /update-user` for the authenticated caller
`req.user.id`. -/
def updateActiveUser {σ : Type} (st : StoreOps σ) (s : σ) (callerId : String) (body : Body) :
    Outcome σ :=
  match st.findByIdAndUpdate s callerId body with
  | .error e =>
    Outcome.respond { status := 400, body := .json (.str ("Error: " ++ e.text)) }
      [Call.findByIdAndUpdate callerId body] s
  | .ok (data, s') =>
    Outcome.respond { status := 200, body := .json (.doc data) }
      [Call.findByIdAndUpdate callerId body] s'

/-! ## The AccountStore -/

/-- A store state: the persisted Accounts in insertion order. -/
abbrev Store := List User

/-- Modelled from the spec: the document-store driver is an external
collaborator; `findByEmail(email) -> Account?` returns the Account with that
email, if any. -/
def Store.findByEmail (s : Store) (email : Option String) : Option User :=
  s.find? (fun u => u.email == email)

/-- Modelled from the spec: `findById(id) -> Account?`. -/
def Store.findById (s : Store) (id : String) : Option User :=
  s.find? (fun u => u.id == id)

/-- Modelled from the spec: `create(Account) -> Account` fails with
`DuplicateKey` if an Account with the same email exists, and adds the Account
otherwise. -/
def Store.create (s : Store) (doc : User) : Except Err Store :=
  match s.findByEmail doc.email with
  | some _ => .error .duplicateKey
  | none => .ok (s ++ [doc])

/-- Modelled from the spec: the merge-by-fields of an update.  Every field
supplied by `$set: body` replaces the stored one, every absent field is kept;
the identifier is not a mergeable field. -/
def User.set (u : User) (b : Body) : User :=
  { u with name := b.name.orElse (fun _ => u.name),
           email := b.email.orElse (fun _ => u.email),
           avatar := b.avatar.getD u.avatar,
           password := b.password.getD u.password,
           image := b.image.getD u.image }

/-- Modelled from the spec: `updateById(id, fields) -> Account` merges the
supplied fields into the existing document and fails with `NotFound` if the id
does not resolve.  The identifier is immutable after creation: a body that
supplies a different identifier is refused and nothing is written. -/
def Store.updateById : Store → String → Body → Except Err (User × Store)
  | [], _, _ => .error .notFound
  | u :: rest, id, b =>
    if u.id = id then
      match b.id with
      | some j => if j = id then .ok (u.set b, u.set b :: rest) else .error .immutableId
      | none => .ok (u.set b, u.set b :: rest)
    else
      match Store.updateById rest id b with
      | .error e => .error e
      | .ok (d, rest') => .ok (d, u :: rest')

/-- Modelled from the spec: `deleteById(id) -> Account` removes the Account and
returns it, and fails with `NotFound` if the id does not resolve. -/
def Store.deleteById : Store → String → Except Err (User × Store)
  | [], _ => .error .notFound
  | u :: rest, id =>
    if u.id = id then .ok (u, rest)
    else
      match Store.deleteById rest id with
      | .error e => .error e
      | .ok (d, rest') => .ok (d, u :: rest')

/-- The `User` model backed by the in-memory AccountStore. -/
def memStore : StoreOps Store :=
  { findOne := fun s email => .ok (s.findByEmail email),
    findById := fun s id => .ok (s.findById id),
    save := fun s doc => s.create doc,
    findByIdAndRemove := fun s id =>
      match s.deleteById id with
      | .error e => .error e
      | .ok (d, s') => .ok (some d, s'),
    findByIdAndUpdate := fun s id b =>
      match s.updateById id b with
      | .error e => .error e
      | .ok (d, s') => .ok (some d, s') }

/-- A document with its credentialHash blanked out. -/
def User.withoutHash (u : User) : User :=
  { u with password := "" }

/-- Two store states differ at most in the stored credentialHash of their
Accounts. -/
def sameExceptHash (s₁ s₂ : Store) : Prop :=
  s₁.map User.withoutHash = s₂.map User.withoutHash

/-- The Account invariant on credentialHash: every Account of the store has a
non-empty `password` field. -/
def hashesPresent (s : Store) : Prop :=
  ∀ u ∈ s, u.password ≠ ""

/-- The identifiers of the Accounts of a store, in order. -/
def Store.ids (s : Store) : List String :=
  s.map (fun u => u.id)

/-! ## Named values used in the statements -/

/-- The strings a chain checks for a field: the values of its selected
occurrences, an undefined one as the empty string. -/
def checkedValues (f : Fields) (param : String) : List String :=
  (selectFields f param).map (fun i => toStr i.value)

/-- The violations of one field: one error per selected occurrence whose value
fails, carrying the occurrence's value and location. -/
def violationsOf (f : Fields) (param message : String) (fails : String → Bool) :
    List ValidationError :=
  (selectFields f param).filterMap (fun i =>
    if fails (toStr i.value) then
      some { value := i.value, msg := message, param := param, location := i.location.name }
    else none)

/-- The document the registration handler hands to `save` when the stored hash
is `hashed`. -/
def registerDoc (l : Libs) (req : RegisterRequest) (hashed : String) : User :=
  { id := l.objectId, name := req.body.name, email := req.body.email,
    avatar := l.gravatarUrl req.body.email "200" "pg" "mm", password := hashed,
    image := imagePath req.file }

/-- The collaborator calls of a registration up to and including `save`. -/
def persistCalls (l : Libs) (req : RegisterRequest) (salt hashed : String) : List Call :=
  [Call.findOne req.body.email,
   Call.gravatarUrl req.body.email "200" "pg" "mm",
   Call.genSalt 10,
   Call.hash req.body.password salt,
   Call.save (registerDoc l req hashed)]

/-- The `image` a registration stores for the file part it received at time
`now`: the stored path for a jpeg or png part, the empty string when there is no
part or when `fileFilter` rejects it. -/
def uploadedImage (now : String) (part : Option Upload) : String :=
  match part with
  | none => ""
  | some file =>
    if file.mimetype = "image/jpeg" ∨ file.mimetype = "image/png" then
      "uploads/" ++ (now ++ file.originalname)
    else ""

/-! ## Sample collaborators and requests -/

/-- Sample library outcomes for running the handlers on concrete requests: an
email check that asks for an `@`, the older `isLength` count, a templated avatar
URL, a fixed generated identifier, a salt and a hash that always succeed, and a
signer that returns a token. -/
def sampleLibs : Libs :=
  { isEmail := fun e => e.toList.contains '@',
    skipSelectors := false,
    gravatarUrl := fun email s r d =>
      "//www.gravatar.com/avatar/" ++ toStr email ++ "?s=" ++ s ++ "&r=" ++ r ++ "&d=" ++ d,
    objectId := "id-ann",
    genSalt := fun rounds => .ok ("salt" ++ toString rounds),
    hash := fun plaintext salt => .ok ("hash:" ++ salt ++ ":" ++ plaintext),
    sign := fun userId _ => .token ("jwt:" ++ userId) }

/-- The sample libraries with a signer that reports `err` on a later tick. -/
def lateSignErrorLibs (err : Err) : Libs :=
  { sampleLibs with sign := fun _ _ => .errAfter err }

/-- The in-memory store in a race: between the handler's `findOne` and its
`save`, another request creates the Account `winner`. -/
def racingStore (winner : User) : StoreOps Store :=
  { memStore with save := fun s doc => (s ++ [winner]).create doc }

/-- A store whose every operation fails with a connection error. -/
def downStore : StoreOps Store :=
  { findOne := fun _ _ => .error (.other "connection lost"),
    findById := fun _ _ => .error (.other "connection lost"),
    save := fun _ _ => .error (.other "connection lost"),
    findByIdAndRemove := fun _ _ => .error (.other "connection lost"),
    findByIdAndUpdate := fun _ _ _ => .error (.other "connection lost") }

/-- The registration body of the worked example. -/
def annBody : Body :=
  { name := some "Ann", email := some "ann@x.com", password := some "secret1" }

/-- The locations of the worked example: Ann's body, nothing elsewhere. -/
def annFields : Fields :=
  { body := annBody }

/-- The worked example request: Ann registers without a file. -/
def annRequest : RegisterRequest :=
  { toFields := annFields, file := none }

/-- A text file sent along with a registration. -/
def textUpload : Upload :=
  { mimetype := "text/plain", originalname := "cv.txt", size := 120 }

/-- A stored Account used in examples. -/
def bobAccount : User :=
  { id := "id-bob", name := some "Bob", email := some "bob@x.com",
    avatar := "//www.gravatar.com/avatar/bob", password := "hash:bob", image := "" }

/-- The Account that the worked example creates under the sample libraries. -/
def annAccount : User :=
  { id := "id-ann", name := some "Ann", email := some "ann@x.com",
    avatar := "//www.gravatar.com/avatar/ann@x.com?s=200&r=pg&d=mm",
    password := "hash:salt10:secret1", image := "" }

/-- An Account with Ann's email created by a concurrent request. -/
def rivalAccount : User :=
  { annAccount with id := "id-rival", password := "hash:salt10:other-secret" }

/-! ## Validator -/

/-- The violation list of the registration chains in closed form: the three
fields contribute independently, in the order name, email, password. -/
theorem validationResult_registerChecks (isEmail : String → Bool) (skip : Bool) (f : Fields) :
    validationResult (registerChecks isEmail skip) f =
      violationsOf f "name" "Name is required" (fun v => v.length == 0) ++
      (violationsOf f "email" "Please include a valid email" (fun v => !isEmail v) ++
       violationsOf f "password" "Please enter a password with 6 or more characters"
        (fun v => !decide (6 ≤ isLengthCount skip v))) := by
  simp [validationResult, registerChecks, check, Chain.not, Chain.isEmpty, Chain.isEmail,
    Chain.isLength, Chain.add, Chain.run, violationsOf]

/-- A property holds at every location when it holds at each of the five. -/
theorem Location.forall_iff (p : Location → Prop) :
    (∀ loc, p loc) ↔ p .body ∧ p .cookies ∧ p .headers ∧ p .params ∧ p .query := by
  constructor
  · intro h
    exact ⟨h _, h _, h _, h _, h _⟩
  · rintro ⟨h1, h2, h3, h4, h5⟩ loc
    cases loc <;> assumption

/-- A property holds at some location when it holds at one of the five. -/
theorem Location.exists_iff (p : Location → Prop) :
    (∃ loc, p loc) ↔ p .body ∨ p .cookies ∨ p .headers ∨ p .params ∨ p .query := by
  constructor
  · rintro ⟨loc, h⟩
    cases loc <;> simp [h]
  · rintro (h | h | h | h | h) <;> exact ⟨_, h⟩

/-- The checked values of a field are the values the locations define for it,
or the empty string alone when no location defines it. -/
theorem mem_checkedValues (f : Fields) (param v : String) :
    v ∈ checkedValues f param ↔
      (∃ loc, (f.at loc).get param = some v) ∨
      ((∀ loc, (f.at loc).get param = none) ∧ v = "") := by
  rw [Location.forall_iff, Location.exists_iff]
  simp only [checkedValues, selectFields, locations, Fields.at, List.map_cons, List.map_nil]
  cases h1 : f.body.get param <;> cases h2 : f.cookies.get param <;>
    cases h3 : f.headers.get param <;> cases h4 : f.params.get param <;>
    cases h5 : f.query.get param <;>
    simp [List.filter, toStr, eq_comm]

/-- A field has a violation exactly when one of its checked values fails. -/
theorem violationsOf_exists (f : Fields) (param message : String) (fails : String → Bool) :
    (∃ e ∈ violationsOf f param message fails, e.param = param) ↔
      ∃ v ∈ checkedValues f param, fails v = true := by
  simp only [violationsOf, checkedValues, List.mem_filterMap, List.mem_map]
  constructor
  · rintro ⟨e, ⟨i, hi, he⟩, _⟩
    by_cases hf : fails (toStr i.value) = true
    · exact ⟨_, ⟨i, hi, rfl⟩, hf⟩
    · simp [hf] at he
  · rintro ⟨v, ⟨i, hi, rfl⟩, hf⟩
    exact ⟨{ value := i.value, msg := message, param := param, location := i.location.name },
      ⟨i, hi, by simp [hf]⟩, rfl⟩

/-- Every violation of a field carries that field's name. -/
theorem violationsOf_param (f : Fields) (param message : String) (fails : String → Bool)
    (e : ValidationError) (he : e ∈ violationsOf f param message fails) : e.param = param := by
  simp only [violationsOf, List.mem_filterMap] at he
  obtain ⟨i, _, hi⟩ := he
  by_cases hf : fails (toStr i.value) = true
  · simp [hf] at hi
    rw [← hi]
  · simp [hf] at hi

/-- A field has no violation named after another field. -/
theorem violationsOf_other (f : Fields) (param other message : String) (fails : String → Bool)
    (h : param ≠ other) :
    ¬ ∃ e ∈ violationsOf f param message fails, e.param = other := by
  rintro ⟨e, he, hp⟩
  exact h ((violationsOf_param f param message fails e he).symm.trans hp)

/-- A string has length zero exactly when it is the empty string. -/
theorem string_length_beq_zero (v : String) : (v.length == 0) = true ↔ v = "" := by
  rw [beq_iff_eq]
  constructor
  · intro h
    apply String.ext
    exact List.length_eq_zero.mp h
  · intro h
    rw [h]
    rfl

/-- A violation named `param` in the list of the registration chains is a
violation of the chain of that field. -/
theorem validationResult_exists (isEmail : String → Bool) (skip : Bool) (f : Fields)
    (param : String) :
    (∃ e ∈ validationResult (registerChecks isEmail skip) f, e.param = param) ↔
      (∃ e ∈ violationsOf f "name" "Name is required" (fun v => v.length == 0),
        e.param = param) ∨
      (∃ e ∈ violationsOf f "email" "Please include a valid email" (fun v => !isEmail v),
        e.param = param) ∨
      (∃ e ∈ violationsOf f "password" "Please enter a password with 6 or more characters"
          (fun v => !decide (6 ≤ isLengthCount skip v)), e.param = param) := by
  rw [validationResult_registerChecks]
  simp only [List.mem_append]
  constructor
  · rintro ⟨e, (he | he | he), hp⟩
    · exact Or.inl ⟨e, he, hp⟩
    · exact Or.inr (Or.inl ⟨e, he, hp⟩)
    · exact Or.inr (Or.inr ⟨e, he, hp⟩)
  · rintro (⟨e, he, hp⟩ | ⟨e, he, hp⟩ | ⟨e, he, hp⟩)
    · exact ⟨e, Or.inl he, hp⟩
    · exact ⟨e, Or.inr (Or.inl he), hp⟩
    · exact ⟨e, Or.inr (Or.inr he), hp⟩

/-- The list has a password violation exactly when a checked password value has
fewer than 6 counted characters. -/
theorem password_violation_iff (isEmail : String → Bool) (skip : Bool) (f : Fields) :
    (∃ e ∈ validationResult (registerChecks isEmail skip) f, e.param = "password") ↔
      ∃ v ∈ checkedValues f "password", isLengthCount skip v < 6 := by
  rw [validationResult_exists]
  have h1 := violationsOf_other f "name" "password" "Name is required"
    (fun v => v.length == 0) (by decide)
  have h2 := violationsOf_other f "email" "password" "Please include a valid email"
    (fun v => !isEmail v) (by decide)
  rw [violationsOf_exists]
  simp only [h1, h2, false_or]
  constructor
  · rintro ⟨v, hv, hf⟩
    exact ⟨v, hv, by simpa using hf⟩
  · rintro ⟨v, hv, hf⟩
    exact ⟨v, hv, by simpa using hf⟩

/-- C10 (as stated, refuted): the claim says a name violation is reported exactly
when the name is absent or blank after trimming.  For a request whose only name
is `" "` (one space, in the body), which is blank after trimming, the chains
report no name violation. -/
theorem validator_blank_name_counterexample :
    ¬ ((∃ e ∈ validationResult (registerChecks sampleLibs.isEmail sampleLibs.skipSelectors)
            { body := { name := some " ", email := some "ann@x.com",
                        password := some "secret1" } },
          e.param = "name") ↔
        ((some " " : Option String) = none ∨
          ∃ v, (some " " : Option String) = some v ∧ blankAfterTrimming v = true)) := by
  intro h
  have hblank : ∃ v, (some " " : Option String) = some v ∧ blankAfterTrimming v = true :=
    ⟨" ", rfl, by decide⟩
  obtain ⟨e, he, _⟩ := h.mpr (Or.inr hblank)
  have hnil : validationResult (registerChecks sampleLibs.isEmail sampleLibs.skipSelectors)
      { body := { name := some " ", email := some "ann@x.com",
                  password := some "secret1" } } = [] := by
    rfl
  rw [hnil] at he
  cases he

/-- C10 (amended): every field is looked up in the body, the cookies, the
headers, the route parameters and the query; the values checked for it are all
the values these locations define, or the empty string alone when none defines
it.  The violation list contains a name violation exactly when a checked name is
the empty string (no trimming is applied), an email violation exactly when the
email check rejects a checked email, and a password violation exactly when a
checked password has fewer than 6 counted characters; the three fields are
checked independently and the list holds the violations in the order name,
email, password. -/
theorem validator_contract (isEmail : String → Bool) (skip : Bool) (f : Fields) :
    (∀ param v, v ∈ checkedValues f param ↔
      (∃ loc, (f.at loc).get param = some v) ∨
      ((∀ loc, (f.at loc).get param = none) ∧ v = "")) ∧
    ((∃ e ∈ validationResult (registerChecks isEmail skip) f, e.param = "name") ↔
        "" ∈ checkedValues f "name") ∧
    ((∃ e ∈ validationResult (registerChecks isEmail skip) f, e.param = "email") ↔
        ∃ v ∈ checkedValues f "email", isEmail v = false) ∧
    ((∃ e ∈ validationResult (registerChecks isEmail skip) f, e.param = "password") ↔
        ∃ v ∈ checkedValues f "password", isLengthCount skip v < 6) ∧
    validationResult (registerChecks isEmail skip) f =
      violationsOf f "name" "Name is required" (fun v => v.length == 0) ++
      (violationsOf f "email" "Please include a valid email" (fun v => !isEmail v) ++
       violationsOf f "password" "Please enter a password with 6 or more characters"
        (fun v => !decide (6 ≤ isLengthCount skip v))) := by
  refine ⟨mem_checkedValues f, ?_, ?_, password_violation_iff isEmail skip f,
    validationResult_registerChecks isEmail skip f⟩
  · rw [validationResult_exists]
    have h2 := violationsOf_other f "email" "name" "Please include a valid email"
      (fun v => !isEmail v) (by decide)
    have h3 := violationsOf_other f "password" "name"
      "Please enter a password with 6 or more characters"
      (fun v => !decide (6 ≤ isLengthCount skip v)) (by decide)
    rw [violationsOf_exists]
    simp only [h2, h3, or_false]
    constructor
    · rintro ⟨v, hv, hf⟩
      rw [string_length_beq_zero] at hf
      rw [← hf]
      exact hv
    · intro hv
      exact ⟨"", hv, rfl⟩
  · rw [validationResult_exists]
    have h1 := violationsOf_other f "name" "email" "Name is required"
      (fun v => v.length == 0) (by decide)
    have h3 := violationsOf_other f "password" "email"
      "Please enter a password with 6 or more characters"
      (fun v => !decide (6 ≤ isLengthCount skip v)) (by decide)
    rw [violationsOf_exists]
    simp only [h1, h3, false_or, or_false]
    constructor
    · rintro ⟨v, hv, hf⟩
      exact ⟨v, hv, by simpa using hf⟩
    · rintro ⟨v, hv, hf⟩
      exact ⟨v, hv, by simpa using hf⟩

/-! ## Upload -/

/-- The `image` of a registration as a function of the file part received, when
the upload is not aborted. -/
theorem imagePath_uploadSingle (now : String) (part : Option Upload) (file : Option StoredFile)
    (h : uploadSingle now part = .ok file) :
    imagePath file = uploadedImage now part := by
  cases part with
  | none =>
    simp only [uploadSingle] at h
    injection h with h
    rw [← h]
    rfl
  | some up =>
    by_cases hm : up.mimetype = "image/jpeg" ∨ up.mimetype = "image/png"
    · by_cases hs : fileSizeLimit < up.size
      · simp [uploadSingle, fileFilter, hm, hs] at h
      · simp only [uploadSingle, fileFilter, hm, hs, if_true, if_false] at h
        injection h with h
        rw [← h]
        simp [imagePath, uploadedImage, hm, storageFilename]
    · simp only [uploadSingle, fileFilter, hm, if_false] at h
      injection h with h
      rw [← h]
      simp [imagePath, uploadedImage, hm]

/-- An upload is aborted exactly when the part passes `fileFilter` and is larger
than the size limit. -/
theorem uploadSingle_error_iff (now : String) (part : Option Upload) :
    (∃ e, uploadSingle now part = .error e) ↔
      ∃ up, part = some up ∧ fileFilter up = true ∧ fileSizeLimit < up.size := by
  cases part with
  | none => simp [uploadSingle]
  | some up =>
    by_cases hf : fileFilter up = true <;> by_cases hs : fileSizeLimit < up.size <;>
      simp [uploadSingle, hf, hs]

/-- An upload that is aborted hands its error to `next`: no response is sent,
no collaborator is called and the store is untouched. -/
theorem postRoot_upload_error {σ : Type} (l : Libs) (st : StoreOps σ) (s : σ) (now : String)
    (fields : Fields) (part : Option Upload) (e : Err)
    (h : uploadSingle now part = .error e) :
    (postRoot l st s now fields part).response = none ∧
    (postRoot l st s now fields part).passedToNext = some e ∧
    (postRoot l st s now fields part).calls = [] ∧
    (postRoot l st s now fields part).store = s := by
  simp [postRoot, h]

/-- When the upload is not aborted the route is the handler run on the request
whose `file` is what `upload.single` stored. -/
theorem postRoot_eq {σ : Type} (l : Libs) (st : StoreOps σ) (s : σ) (now : String)
    (fields : Fields) (part : Option Upload) (file : Option StoredFile)
    (h : uploadSingle now part = .ok file) :
    postRoot l st s now fields part =
      registerPost l st s { toFields := fields, file := file } := by
  simp [postRoot, h]

/-! ## Registration: the validation gate -/

/-- A request with a non-empty violation list is answered by the first `return`
of the handler. -/
theorem registerPost_invalid {σ : Type} (l : Libs) (st : StoreOps σ) (s : σ)
    (req : RegisterRequest)
    (hne : validationResult (registerChecks l.isEmail l.skipSelectors) req.toFields ≠ []) :
    (registerPost l st s req).response =
      some { status := 400,
             body := .json (.errors
               (validationResult (registerChecks l.isEmail l.skipSelectors) req.toFields)) } ∧
    (registerPost l st s req).calls = [] ∧
    (registerPost l st s req).store = s := by
  have hemp : (validationResult (registerChecks l.isEmail l.skipSelectors)
      req.toFields).isEmpty = false := by
    cases hv : validationResult (registerChecks l.isEmail l.skipSelectors) req.toFields with
    | nil => exact absurd hv hne
    | cons a t => rfl
  refine ⟨?_, ?_, ?_⟩ <;> simp [registerPost, hemp, Outcome.respond]

/-- A request carries a password of fewer than 6 characters: some location
defines a password with fewer than 6 counted characters, or no location defines
a password at all.  Then a checked password value is that short. -/
theorem short_password_checked (skip : Bool) (f : Fields)
    (h : (∃ loc v, (f.at loc).password = some v ∧ isLengthCount skip v < 6) ∨
      (∀ loc, (f.at loc).password = none)) :
    ∃ v ∈ checkedValues f "password", isLengthCount skip v < 6 := by
  have hget : ∀ b : Body, b.get "password" = b.password := by
    intro b
    simp [Body.get]
  rcases h with ⟨loc, v, hv, hlen⟩ | hnone
  · refine ⟨v, ?_, hlen⟩
    rw [mem_checkedValues]
    exact Or.inl ⟨loc, by rw [hget]; exact hv⟩
  · refine ⟨"", ?_, by simp [isLengthCount]⟩
    rw [mem_checkedValues]
    exact Or.inr ⟨fun loc => by rw [hget]; exact hnone loc, rfl⟩

/-- C1: whenever the violation list of a registration request is non-empty, and
in particular whenever the request's password has fewer than 6 characters (some
location of the request defines a password that short, or none defines a
password), the handler answers 400 with the full violation list, makes no
collaborator call at all (no `findOne`, `save`, `genSalt`, `hash`, `gravatar.url`
or `jwt.sign`) and leaves the store as it was; the same holds of the route
`POST /` for every file part whose upload is not aborted. -/
theorem register_validation_gate {σ : Type} (l : Libs) (st : StoreOps σ) (s : σ)
    (req : RegisterRequest)
    (h : validationResult (registerChecks l.isEmail l.skipSelectors) req.toFields ≠ [] ∨
      (∃ loc v, (req.toFields.at loc).password = some v ∧
        isLengthCount l.skipSelectors v < 6) ∨
      (∀ loc, (req.toFields.at loc).password = none)) :
    validationResult (registerChecks l.isEmail l.skipSelectors) req.toFields ≠ [] ∧
    ((registerPost l st s req).response =
      some { status := 400,
             body := .json (.errors
               (validationResult (registerChecks l.isEmail l.skipSelectors) req.toFields)) } ∧
     (registerPost l st s req).calls = [] ∧
     (registerPost l st s req).store = s) ∧
    (∀ now part file, uploadSingle now part = .ok file →
      (postRoot l st s now req.toFields part).response =
        some { status := 400,
               body := .json (.errors
                 (validationResult (registerChecks l.isEmail l.skipSelectors) req.toFields)) } ∧
      (postRoot l st s now req.toFields part).calls = [] ∧
      (postRoot l st s now req.toFields part).store = s) := by
  have hne : validationResult (registerChecks l.isEmail l.skipSelectors) req.toFields ≠ [] := by
    rcases h with h | h
    · exact h
    · obtain ⟨e, he, _⟩ := (password_violation_iff l.isEmail l.skipSelectors req.toFields).mpr
        (short_password_checked l.skipSelectors req.toFields h)
      exact List.ne_nil_of_mem he
  refine ⟨hne, registerPost_invalid l st s req hne, ?_⟩
  intro now part file hup
  rw [postRoot_eq l st s now req.toFields part file hup]
  exact registerPost_invalid l st s { toFields := req.toFields, file := file } hne

/-- C1 witness: Ann with the five-character password `"secre"`. -/
theorem register_validation_gate_witness :
    (∃ loc v, (Fields.at { body := { annBody with password := some "secre" } } loc).password =
        some v ∧ isLengthCount sampleLibs.skipSelectors v < 6) ∧
    (registerPost sampleLibs memStore [bobAccount]
        { body := { annBody with password := some "secre" } }).response =
      some { status := 400,
             body := .json (.errors
               (validationResult (registerChecks sampleLibs.isEmail sampleLibs.skipSelectors)
                 { body := { annBody with password := some "secre" } })) } ∧
    (registerPost sampleLibs memStore [bobAccount]
        { body := { annBody with password := some "secre" } }).calls = [] ∧
    (registerPost sampleLibs memStore [bobAccount]
        { body := { annBody with password := some "secre" } }).store = [bobAccount] :=
  have hshort : ∃ loc v,
      (Fields.at { body := { annBody with password := some "secre" } } loc).password = some v ∧
        isLengthCount sampleLibs.skipSelectors v < 6 :=
    ⟨.body, "secre", rfl, by decide⟩
  ⟨hshort,
   (register_validation_gate sampleLibs memStore [bobAccount]
      { body := { annBody with password := some "secre" } } (Or.inr (Or.inl hshort))).2.1⟩

/-! ## Registration: hashing and persistence -/

/-- A violation list equal to `[]` passes the test `errors.isEmpty()`. -/
theorem validationResult_isEmpty_of_nil (isEmail : String → Bool) (skip : Bool) (f : Fields)
    (h : validationResult (registerChecks isEmail skip) f = []) :
    (validationResult (registerChecks isEmail skip) f).isEmpty = true := by
  rw [h]
  rfl

/-- A registration that reaches the persist step continues according to the
outcome of `save`: the `catch` block on a failure, token signing on success. -/
theorem registerPost_persist {σ : Type} (l : Libs) (st : StoreOps σ) (s : σ)
    (req : RegisterRequest) (salt hashed : String)
    (hvalid : validationResult (registerChecks l.isEmail l.skipSelectors) req.toFields = [])
    (hfind : st.findOne s req.body.email = .ok none)
    (hsalt : l.genSalt 10 = .ok salt)
    (hhash : bcryptHash l req.body.password salt = .ok hashed) :
    registerPost l st s req =
      match st.save s (registerDoc l req hashed) with
      | .error e => serverError (persistCalls l req salt hashed) s e
      | .ok s' => signAndRespond l (persistCalls l req salt hashed) s' l.objectId := by
  have hemp := validationResult_isEmpty_of_nil l.isEmail l.skipSelectors req.toFields hvalid
  simp only [registerPost, hemp, hfind, hsalt, hhash, registerDoc, persistCalls]
  rfl

/-- The calls of a registration that reaches the persist step: the five calls up
to `save`, followed by `jwt.sign` when `save` succeeded. -/
theorem registerPost_persist_calls {σ : Type} (l : Libs) (st : StoreOps σ) (s : σ)
    (req : RegisterRequest) (salt hashed : String)
    (hvalid : validationResult (registerChecks l.isEmail l.skipSelectors) req.toFields = [])
    (hfind : st.findOne s req.body.email = .ok none)
    (hsalt : l.genSalt 10 = .ok salt)
    (hhash : bcryptHash l req.body.password salt = .ok hashed) :
    (registerPost l st s req).calls = persistCalls l req salt hashed ∨
    (registerPost l st s req).calls =
      persistCalls l req salt hashed ++ [Call.jwtSign l.objectId 36000] := by
  rw [registerPost_persist l st s req salt hashed hvalid hfind hsalt hhash]
  cases st.save s (registerDoc l req hashed) with
  | error e => exact Or.inl rfl
  | ok s' =>
    refine Or.inr ?_
    simp only [signAndRespond]
    cases l.sign l.objectId 36000 <;> rfl

/-- A successful `bcrypt.hash` was given a defined password and is the
library's hash of it. -/
theorem bcryptHash_ok (l : Libs) (password : Option String) (salt hashed : String)
    (h : bcryptHash l password salt = .ok hashed) :
    ∃ plaintext, password = some plaintext ∧ l.hash plaintext salt = .ok hashed := by
  cases password with
  | none => simp [bcryptHash] at h
  | some p => exact ⟨p, rfl, h⟩

/-- C2: for every registration that reaches the persist step (valid fields,
`findOne` finds no account, salt generation at work factor 10 and hashing
succeed) the handler calls `genSalt(10)` and `hash(plaintext, salt)` on the
submitted plaintext, hands to `save` a document whose `password` is the hasher's
output, and hands no other document to `save`; so when the hasher never returns
its input, the password handed to `save` differs from the submitted
plaintext. -/
theorem register_persists_hash {σ : Type} (l : Libs) (st : StoreOps σ) (s : σ)
    (req : RegisterRequest) (salt hashed : String)
    (hvalid : validationResult (registerChecks l.isEmail l.skipSelectors) req.toFields = [])
    (hfind : st.findOne s req.body.email = .ok none)
    (hsalt : l.genSalt 10 = .ok salt)
    (hhash : bcryptHash l req.body.password salt = .ok hashed) :
    (∃ plaintext, req.body.password = some plaintext ∧ l.hash plaintext salt = .ok hashed) ∧
    Call.genSalt 10 ∈ (registerPost l st s req).calls ∧
    Call.hash req.body.password salt ∈ (registerPost l st s req).calls ∧
    (∀ doc, Call.save doc ∈ (registerPost l st s req).calls ↔
      doc = registerDoc l req hashed) ∧
    (registerDoc l req hashed).password = hashed ∧
    ((∀ p t h, l.hash p t = .ok h → h ≠ p) →
      ∀ doc, Call.save doc ∈ (registerPost l st s req).calls →
        some doc.password ≠ req.body.password) := by
  have hplain := bcryptHash_ok l req.body.password salt hashed hhash
  have hsave : ∀ doc, Call.save doc ∈ (registerPost l st s req).calls ↔
      doc = registerDoc l req hashed := by
    intro doc
    rcases registerPost_persist_calls l st s req salt hashed hvalid hfind hsalt hhash with h | h <;>
      rw [h] <;> simp [persistCalls]
  refine ⟨hplain, ?_, ?_, hsave, rfl, ?_⟩
  · rcases registerPost_persist_calls l st s req salt hashed hvalid hfind hsalt hhash with h | h <;>
      rw [h] <;> simp [persistCalls]
  · rcases registerPost_persist_calls l st s req salt hashed hvalid hfind hsalt hhash with h | h <;>
      rw [h] <;> simp [persistCalls]
  · intro hcontract doc hdoc
    rw [(hsave doc).mp hdoc]
    obtain ⟨p, hp, hh⟩ := hplain
    rw [hp]
    intro heq
    injection heq with heq
    exact hcontract _ _ _ hh heq

/-- C2 witness: Ann's registration on the empty store hands to `save` a
document whose password is the hash, not `"secret1"`. -/
theorem register_persists_hash_witness :
    validationResult (registerChecks sampleLibs.isEmail sampleLibs.skipSelectors)
      annRequest.toFields = [] ∧
    Call.hash (some "secret1") "salt10" ∈
      (registerPost sampleLibs memStore [] annRequest).calls ∧
    (∀ doc, Call.save doc ∈ (registerPost sampleLibs memStore [] annRequest).calls ↔
      doc = registerDoc sampleLibs annRequest "hash:salt10:secret1") :=
  ⟨rfl,
   (register_persists_hash sampleLibs memStore [] annRequest "salt10" "hash:salt10:secret1"
      rfl rfl rfl rfl).2.2.1,
   (register_persists_hash sampleLibs memStore [] annRequest "salt10" "hash:salt10:secret1"
      rfl rfl rfl rfl).2.2.2.1⟩

/-! ## Registration: failure branches -/

/-- A valid request whose email is found by `findOne` is answered 400 with
`{errors: [{msg: 'User already exists'}]}` after that single call. -/
theorem registerPost_duplicate {σ : Type} (l : Libs) (st : StoreOps σ) (s : σ)
    (req : RegisterRequest) (u : User)
    (hvalid : validationResult (registerChecks l.isEmail l.skipSelectors) req.toFields = [])
    (hfind : st.findOne s req.body.email = .ok (some u)) :
    registerPost l st s req =
      Outcome.respond { status := 400, body := .json (.errorMsgs ["User already exists"]) }
        [Call.findOne req.body.email] s := by
  have hemp := validationResult_isEmpty_of_nil l.isEmail l.skipSelectors req.toFields hvalid
  simp only [registerPost, hemp, hfind]
  rfl

/-- A valid request whose `findOne` throws ends in the `catch` block. -/
theorem registerPost_findOne_error {σ : Type} (l : Libs) (st : StoreOps σ) (s : σ)
    (req : RegisterRequest) (e : Err)
    (hvalid : validationResult (registerChecks l.isEmail l.skipSelectors) req.toFields = [])
    (hfind : st.findOne s req.body.email = .error e) :
    registerPost l st s req = serverError [Call.findOne req.body.email] s e := by
  have hemp := validationResult_isEmpty_of_nil l.isEmail l.skipSelectors req.toFields hvalid
  simp only [registerPost, hemp, hfind]
  rfl

/-- A valid request whose salt generation throws ends in the `catch` block. -/
theorem registerPost_genSalt_error {σ : Type} (l : Libs) (st : StoreOps σ) (s : σ)
    (req : RegisterRequest) (e : Err)
    (hvalid : validationResult (registerChecks l.isEmail l.skipSelectors) req.toFields = [])
    (hfind : st.findOne s req.body.email = .ok none)
    (hsalt : l.genSalt 10 = .error e) :
    registerPost l st s req =
      serverError [Call.findOne req.body.email,
        Call.gravatarUrl req.body.email "200" "pg" "mm", Call.genSalt 10] s e := by
  have hemp := validationResult_isEmpty_of_nil l.isEmail l.skipSelectors req.toFields hvalid
  simp only [registerPost, hemp, hfind, hsalt]
  rfl

/-- A valid request whose hashing throws, as it does for an undefined password,
ends in the `catch` block before any `save`. -/
theorem registerPost_hash_error {σ : Type} (l : Libs) (st : StoreOps σ) (s : σ)
    (req : RegisterRequest) (salt : String) (e : Err)
    (hvalid : validationResult (registerChecks l.isEmail l.skipSelectors) req.toFields = [])
    (hfind : st.findOne s req.body.email = .ok none)
    (hsalt : l.genSalt 10 = .ok salt)
    (hhash : bcryptHash l req.body.password salt = .error e) :
    registerPost l st s req =
      serverError [Call.findOne req.body.email,
        Call.gravatarUrl req.body.email "200" "pg" "mm", Call.genSalt 10,
        Call.hash req.body.password salt] s e := by
  have hemp := validationResult_isEmpty_of_nil l.isEmail l.skipSelectors req.toFields hvalid
  simp only [registerPost, hemp, hfind, hsalt, hhash]
  rfl

/-- A registration whose `save` throws, whatever the error, ends in the `catch`
block: status 500 with the text `Server error`, store unchanged. -/
theorem registerPost_save_error {σ : Type} (l : Libs) (st : StoreOps σ) (s : σ)
    (req : RegisterRequest) (salt hashed : String) (e : Err)
    (hvalid : validationResult (registerChecks l.isEmail l.skipSelectors) req.toFields = [])
    (hfind : st.findOne s req.body.email = .ok none)
    (hsalt : l.genSalt 10 = .ok salt)
    (hhash : bcryptHash l req.body.password salt = .ok hashed)
    (hsave : st.save s (registerDoc l req hashed) = .error e) :
    registerPost l st s req = serverError (persistCalls l req salt hashed) s e := by
  rw [registerPost_persist l st s req salt hashed hvalid hfind hsalt hhash, hsave]

/-- A registration whose Account was saved continues with token signing. -/
theorem registerPost_saved {σ : Type} (l : Libs) (st : StoreOps σ) (s s' : σ)
    (req : RegisterRequest) (salt hashed : String)
    (hvalid : validationResult (registerChecks l.isEmail l.skipSelectors) req.toFields = [])
    (hfind : st.findOne s req.body.email = .ok none)
    (hsalt : l.genSalt 10 = .ok salt)
    (hhash : bcryptHash l req.body.password salt = .ok hashed)
    (hsave : st.save s (registerDoc l req hashed) = .ok s') :
    registerPost l st s req =
      signAndRespond l (persistCalls l req salt hashed) s' l.objectId := by
  rw [registerPost_persist l st s req salt hashed hvalid hfind hsalt hhash, hsave]

/-- A signing error reported during the `jwt.sign` call: the callback's `throw`
reaches the `catch` block, the answer is 500 with the text `Server error`, no
token is sent, and no further store call follows `save`. -/
theorem register_sign_error_during {σ : Type} (l : Libs) (st : StoreOps σ) (s s' : σ)
    (req : RegisterRequest) (salt hashed : String) (e : Err)
    (hvalid : validationResult (registerChecks l.isEmail l.skipSelectors) req.toFields = [])
    (hfind : st.findOne s req.body.email = .ok none)
    (hsalt : l.genSalt 10 = .ok salt)
    (hhash : bcryptHash l req.body.password salt = .ok hashed)
    (hsave : st.save s (registerDoc l req hashed) = .ok s')
    (hsign : l.sign l.objectId 36000 = .errDuring e) :
    (registerPost l st s req).response = some { status := 500, body := .text "Server error" } ∧
    (registerPost l st s req).store = s' ∧
    (registerPost l st s req).calls =
      persistCalls l req salt hashed ++ [Call.jwtSign l.objectId 36000] := by
  rw [registerPost_saved l st s s' req salt hashed hvalid hfind hsalt hhash hsave]
  simp [signAndRespond, hsign, serverError]

/-- A signing error reported after `jwt.sign` has returned: the callback's
`throw` is outside every `try`, so no response is sent; the Account stays
saved and no further store call follows `save`. -/
theorem register_sign_error_after {σ : Type} (l : Libs) (st : StoreOps σ) (s s' : σ)
    (req : RegisterRequest) (salt hashed : String) (e : Err)
    (hvalid : validationResult (registerChecks l.isEmail l.skipSelectors) req.toFields = [])
    (hfind : st.findOne s req.body.email = .ok none)
    (hsalt : l.genSalt 10 = .ok salt)
    (hhash : bcryptHash l req.body.password salt = .ok hashed)
    (hsave : st.save s (registerDoc l req hashed) = .ok s')
    (hsign : l.sign l.objectId 36000 = .errAfter e) :
    (registerPost l st s req).response = none ∧
    (registerPost l st s req).uncaught = some e ∧
    (registerPost l st s req).store = s' ∧
    (registerPost l st s req).calls =
      persistCalls l req salt hashed ++ [Call.jwtSign l.objectId 36000] := by
  rw [registerPost_saved l st s s' req salt hashed hvalid hfind hsalt hhash hsave]
  simp [signAndRespond, hsign]

/-- C3 (the code at the failing input): Ann registers on an empty store, so the
pre-check `findOne` finds no account; a concurrent request creates an Account
with her email before `save`, so `save` fails with `DuplicateKey`.  The handler
answers 500 with the text `Server error`, not 400 with a duplicate-account
body. -/
theorem register_race_lost_answers_500 :
    (racingStore rivalAccount).findOne [] (some "ann@x.com") = .ok none ∧
    (racingStore rivalAccount).save []
      (registerDoc sampleLibs annRequest "hash:salt10:secret1") = .error .duplicateKey ∧
    (registerPost sampleLibs (racingStore rivalAccount) [] annRequest).response =
      some { status := 500, body := .text "Server error" } ∧
    (registerPost sampleLibs (racingStore rivalAccount) [] annRequest).logged =
      ["E11000 duplicate key error"] :=
  ⟨rfl, rfl, rfl, rfl⟩

/-- C4 (the code at the failing input): Ann's Account is created and the signer
then reports an error to its callback after `jwt.sign` has returned.  The
handler sends no response at all (in particular no status 500); the error
leaves the callback uncaught, no token is sent and the Account stays in the
store. -/
theorem register_late_sign_error_no_response :
    (registerPost (lateSignErrorLibs (.other "signing failed")) memStore [] annRequest).response =
      none ∧
    (registerPost (lateSignErrorLibs (.other "signing failed")) memStore [] annRequest).uncaught =
      some (.other "signing failed") ∧
    (registerPost (lateSignErrorLibs (.other "signing failed")) memStore [] annRequest).store =
      [annAccount] ∧
    (registerPost (lateSignErrorLibs (.other "signing failed")) memStore [] annRequest).calls =
      persistCalls sampleLibs annRequest "salt10" "hash:salt10:secret1" ++
        [Call.jwtSign "id-ann" 36000] :=
  ⟨rfl, rfl, rfl, rfl⟩

/-! ## Failure bodies -/

/-- C7 (as stated, refuted): Ann registers while the store is unreachable, a
persistence failure the handler handles itself.  The response is sent with
`res.send('Server error')`: its body is plain text, not a JSON-encoded body. -/
theorem register_persistence_failure_body_counterexample :
    ∃ r, (registerPost sampleLibs downStore [] annRequest).response = some r ∧
      r.status = 500 ∧ r.body = .text "Server error" ∧ r.isJson = false :=
  ⟨{ status := 500, body := .text "Server error" }, rfl, rfl, rfl, rfl⟩

/-- C7 (amended): the failures answered with status 400 carry a JSON body, namely
a validation failure and a duplicate account found by `findOne` in registration,
and a store error in `GET /` and in `PUT /update-user`.  The failures of
registration that reach the `catch` block (an error thrown by `findOne`, by
`save`, or by the signer during the `jwt.sign` call) are answered with status 500
and the plain-text body `Server error`, which is not JSON. -/
theorem failure_bodies {σ : Type} (l : Libs) (st : StoreOps σ) (s : σ)
    (req : RegisterRequest) :
    (validationResult (registerChecks l.isEmail l.skipSelectors) req.toFields ≠ [] →
      ∃ r, (registerPost l st s req).response = some r ∧ r.status = 400 ∧ r.isJson = true) ∧
    (validationResult (registerChecks l.isEmail l.skipSelectors) req.toFields = [] →
      ∀ u, st.findOne s req.body.email = .ok (some u) →
      ∃ r, (registerPost l st s req).response = some r ∧ r.status = 400 ∧ r.isJson = true) ∧
    (∀ callerId e, st.findById s callerId = .error e →
      ∃ r, (getRoot st s callerId).response = some r ∧ r.status = 400 ∧ r.isJson = true) ∧
    (∀ callerId body e, st.findByIdAndUpdate s callerId body = .error e →
      ∃ r, (updateActiveUser st s callerId body).response = some r ∧
        r.status = 400 ∧ r.isJson = true) ∧
    (validationResult (registerChecks l.isEmail l.skipSelectors) req.toFields = [] →
      (∀ e, st.findOne s req.body.email = .error e →
        (registerPost l st s req).response =
          some { status := 500, body := .text "Server error" }) ∧
      (∀ salt hashed, st.findOne s req.body.email = .ok none →
        l.genSalt 10 = .ok salt → bcryptHash l req.body.password salt = .ok hashed →
        (∀ e, st.save s (registerDoc l req hashed) = .error e →
          (registerPost l st s req).response =
            some { status := 500, body := .text "Server error" }) ∧
        (∀ s' e, st.save s (registerDoc l req hashed) = .ok s' →
          l.sign l.objectId 36000 = .errDuring e →
          (registerPost l st s req).response =
            some { status := 500, body := .text "Server error" }))) := by
  refine ⟨?_, ?_, ?_, ?_, ?_⟩
  · intro hne
    exact ⟨_, (registerPost_invalid l st s req hne).1, rfl, rfl⟩
  · intro hvalid u hfind
    rw [registerPost_duplicate l st s req u hvalid hfind]
    exact ⟨_, rfl, rfl, rfl⟩
  · intro callerId e hfind
    simp only [getRoot, hfind]
    exact ⟨_, rfl, rfl, rfl⟩
  · intro callerId body e hupd
    simp only [updateActiveUser, hupd]
    exact ⟨_, rfl, rfl, rfl⟩
  · intro hvalid
    refine ⟨?_, ?_⟩
    · intro e hfind
      rw [registerPost_findOne_error l st s req e hvalid hfind]
      rfl
    · intro salt hashed hfind hsalt hhash
      refine ⟨?_, ?_⟩
      · intro e hsave
        rw [registerPost_save_error l st s req salt hashed e hvalid hfind hsalt hhash hsave]
        rfl
      · intro s' e hsave hsign
        exact (register_sign_error_during l st s s' req salt hashed e hvalid hfind hsalt hhash
          hsave hsign).1

/-- C7 witness: a request with an empty body fails validation and is answered
400 with a JSON body. -/
theorem failure_bodies_witness :
    validationResult (registerChecks sampleLibs.isEmail sampleLibs.skipSelectors)
      ({ } : Fields) ≠ [] ∧
    ∃ r, (registerPost sampleLibs memStore [] { }).response = some r ∧
      r.status = 400 ∧ r.isJson = true :=
  ⟨by decide,
   (failure_bodies sampleLibs memStore [] { }).1 (by decide)⟩

/-! ## Registration: success -/

/-- An upload whose accepted file is within the size limit is not aborted. -/
theorem uploadSingle_ok (now : String) (part : Option Upload)
    (hsize : ∀ up, part = some up → fileFilter up = true → up.size ≤ fileSizeLimit) :
    ∃ file, uploadSingle now part = .ok file := by
  cases part with
  | none => exact ⟨none, rfl⟩
  | some up =>
    by_cases hf : fileFilter up = true
    · have hle := hsize up rfl hf
      have hs : ¬ fileSizeLimit < up.size := by omega
      exact ⟨some { path := "uploads/" ++ storageFilename now up },
        by simp [uploadSingle, hf, hs]⟩
    · exact ⟨none, by simp [uploadSingle, hf]⟩

/-- C8 (as stated, refuted): Ann registers and a text file accompanies the
request.  `fileFilter` rejects the file, the registration succeeds with 200 and
the token, and the created Account has the empty string as `image`, not the
path of an uploaded file. -/
theorem register_rejected_file_counterexample :
    (postRoot sampleLibs memStore [] "2020-01-01T00:00:00.000Z" annFields
      (some textUpload)).response =
      some { status := 200, body := .json (.token "jwt:id-ann") } ∧
    (postRoot sampleLibs memStore [] "2020-01-01T00:00:00.000Z" annFields
      (some textUpload)).store = [annAccount] ∧
    annAccount.image = "" :=
  ⟨rfl, rfl, rfl⟩

/-- C8 (amended): for every valid request with name, email and password in the
body whose email is not yet registered and for which salt generation, hashing,
`save` and signing succeed: if the upload is not aborted by the size limit, the
route `POST /` answers 200 with `{token}`, the token being the signer's output
for the payload holding the created document's identifier (expiry 36000), and
the document handed to `save` has the submitted name and email, the avatar
`gravatar.url(email, {s: '200', r: 'pg', d: 'mm'})`, the hash as password, and as
image the stored path `uploads/<timestamp><original name>` if a jpeg or png file
accompanied the request, and the empty string if no file or a file of another
mimetype accompanied it; if a jpeg or png file above the size limit accompanies
the request, the upload error is handed to `next`, nothing is answered and no
collaborator is called. -/
theorem register_success {σ : Type} (l : Libs) (st : StoreOps σ) (s s' : σ)
    (now : String) (fields : Fields) (part : Option Upload)
    (name email password salt hashed token : String)
    (hname : fields.body.name = some name)
    (hemail : fields.body.email = some email)
    (hpassword : fields.body.password = some password)
    (hvalid : validationResult (registerChecks l.isEmail l.skipSelectors) fields = [])
    (hfind : st.findOne s (some email) = .ok none)
    (hsalt : l.genSalt 10 = .ok salt)
    (hhash : l.hash password salt = .ok hashed)
    (hsave : st.save s
      { id := l.objectId, name := some name, email := some email,
        avatar := l.gravatarUrl (some email) "200" "pg" "mm", password := hashed,
        image := uploadedImage now part } = .ok s')
    (hsign : l.sign l.objectId 36000 = .token token) :
    ((∀ up, part = some up → fileFilter up = true → up.size ≤ fileSizeLimit) →
      (postRoot l st s now fields part).response =
        some { status := 200, body := .json (.token token) } ∧
      (postRoot l st s now fields part).store = s' ∧
      (postRoot l st s now fields part).calls =
        [Call.findOne (some email), Call.gravatarUrl (some email) "200" "pg" "mm",
         Call.genSalt 10, Call.hash (some password) salt,
         Call.save
           { id := l.objectId, name := some name, email := some email,
             avatar := l.gravatarUrl (some email) "200" "pg" "mm", password := hashed,
             image := uploadedImage now part },
         Call.jwtSign l.objectId 36000]) ∧
    (part = none → uploadedImage now part = "") ∧
    (∀ up, part = some up → (up.mimetype = "image/jpeg" ∨ up.mimetype = "image/png") →
      uploadedImage now part = "uploads/" ++ (now ++ up.originalname)) ∧
    (∀ up, part = some up → ¬ (up.mimetype = "image/jpeg" ∨ up.mimetype = "image/png") →
      uploadedImage now part = "") ∧
    (∀ up, part = some up → (up.mimetype = "image/jpeg" ∨ up.mimetype = "image/png") →
      fileSizeLimit < up.size →
      (postRoot l st s now fields part).response = none ∧
      (postRoot l st s now fields part).passedToNext = some (.other "File too large") ∧
      (postRoot l st s now fields part).calls = [] ∧
      (postRoot l st s now fields part).store = s) := by
  refine ⟨?_, ?_, ?_, ?_, ?_⟩
  · intro hsize
    obtain ⟨file, hup⟩ := uploadSingle_ok now part hsize
    have himg := imagePath_uploadSingle now part file hup
    have hdoc : registerDoc l { toFields := fields, file := file } hashed =
        { id := l.objectId, name := some name, email := some email,
          avatar := l.gravatarUrl (some email) "200" "pg" "mm", password := hashed,
          image := uploadedImage now part } := by
      simp only [registerDoc, hname, hemail, himg]
    have hrun := registerPost_saved l st s s' { toFields := fields, file := file } salt hashed
      hvalid (by simpa [hemail] using hfind) hsalt
      (by simpa [bcryptHash, hpassword] using hhash) (by rw [hdoc]; exact hsave)
    rw [postRoot_eq l st s now fields part file hup, hrun]
    simp only [signAndRespond, hsign, Outcome.respond]
    refine ⟨trivial, trivial, ?_⟩
    simp [persistCalls, hdoc, hemail, hpassword]
  · intro hp
    rw [hp]
    rfl
  · intro up hp hm
    rw [hp]
    simp [uploadedImage, hm]
  · intro up hp hm
    rw [hp]
    simp [uploadedImage, hm]
  · intro up hp hm hbig
    have hup : uploadSingle now part = .error (.other "File too large") := by
      rw [hp]
      simp [uploadSingle, fileFilter, hm, hbig]
    exact postRoot_upload_error l st s now fields part _ hup

/-- C8 witness: Ann registers with `"secret1"` and no file on the empty store;
the answer is 200 with the signer's token and the store then holds her
Account with an empty `image`. -/
theorem register_success_witness :
    (postRoot sampleLibs memStore [] "2020-01-01T00:00:00.000Z" annFields none).response =
      some { status := 200, body := .json (.token "jwt:id-ann") } ∧
    (postRoot sampleLibs memStore [] "2020-01-01T00:00:00.000Z" annFields none).store =
      [annAccount] ∧
    uploadedImage "2020-01-01T00:00:00.000Z" none = "" :=
  have h := register_success sampleLibs memStore [] [annAccount]
    "2020-01-01T00:00:00.000Z" annFields none
    "Ann" "ann@x.com" "secret1" "salt10" "hash:salt10:secret1" "jwt:id-ann"
    rfl rfl rfl rfl rfl rfl rfl rfl rfl
  have hrun := h.1 (by intro up hp; cases hp)
  ⟨hrun.1, hrun.2.1, h.2.1 rfl⟩

/-! ## The AccountStore: lemmas -/

/-- Whether an email is registered does not depend on the stored hashes. -/
theorem findByEmail_isSome_congr (s₁ s₂ : Store) (email : Option String)
    (h : sameExceptHash s₁ s₂) :
    (s₁.findByEmail email).isSome = (s₂.findByEmail email).isSome := by
  have key : ∀ s : Store, (Store.findByEmail (s.map User.withoutHash) email).isSome =
      (s.findByEmail email).isSome := by
    intro s
    induction s with
    | nil => rfl
    | cons u t ih =>
      simp only [Store.findByEmail, List.map_cons, List.find?_cons] at ih ⊢
      have hu : (u.withoutHash.email == email) = (u.email == email) := rfl
      rw [hu]
      cases (u.email == email)
      · exact ih
      · rfl
  rw [← key s₁, ← key s₂]
  unfold sameExceptHash at h
  rw [h]

/-- Updating a present Account without changing its identifier succeeds and
replaces exactly that document by its merge with the body. -/
theorem updateById_findById (s : Store) (id : String) (b : Body) (x : User)
    (hb : b.id = none ∨ b.id = some id) (hx : s.findById id = some x) :
    ∃ before after, s = before ++ x :: after ∧ (∀ u ∈ before, u.id ≠ id) ∧ x.id = id ∧
      s.updateById id b = .ok (x.set b, before ++ x.set b :: after) := by
  induction s with
  | nil => simp [Store.findById] at hx
  | cons u t ih =>
    by_cases hu : u.id = id
    · have hxu : x = u := by
        simp [Store.findById, List.find?_cons, hu] at hx
        exact hx.symm
      subst hxu
      refine ⟨[], t, rfl, by simp, hu, ?_⟩
      rcases hb with hb | hb <;> simp [Store.updateById, hu, hb]
    · have hx' : Store.findById t id = some x := by
        simpa [Store.findById, List.find?_cons, hu] using hx
      obtain ⟨before, after, ht, hbefore, hxid, hupd⟩ := ih hx'
      refine ⟨u :: before, after, by rw [ht]; rfl, ?_, hxid, ?_⟩
      · intro v hv
        rcases List.mem_cons.mp hv with hv | hv
        · rw [hv]; exact hu
        · exact hbefore v hv
      · simp [Store.updateById, hu, hupd]

/-- A successful update keeps the identifiers of the store, and keeps every hash
non-empty unless the body sets `password` to the empty string. -/
theorem updateById_ok (s : Store) (id : String) (b : Body) (d : User) (s' : Store)
    (h : s.updateById id b = .ok (d, s')) :
    Store.ids s' = Store.ids s ∧
    (b.password ≠ some "" → hashesPresent s → hashesPresent s') := by
  induction s generalizing s' with
  | nil => simp [Store.updateById] at h
  | cons u t ih =>
    by_cases hu : u.id = id
    · have hs' : s' = u.set b :: t := by
        cases hb : b.id with
        | none => simp [Store.updateById, hu, hb] at h; exact h.2.symm
        | some j =>
          by_cases hj : j = id
          · simp [Store.updateById, hu, hb, hj] at h; exact h.2.symm
          · simp [Store.updateById, hu, hb, hj] at h
      subst hs'
      refine ⟨by simp [Store.ids, User.set], ?_⟩
      intro hpw hinv v hv
      rcases List.mem_cons.mp hv with hv | hv
      · rw [hv]
        have := hinv u (List.mem_cons_self _ _)
        cases hp : b.password with
        | none => simpa [User.set, hp] using this
        | some p =>
          simp only [User.set, hp, Option.getD_some]
          intro hpe
          exact hpw (by rw [hp, hpe])
      · exact hinv v (List.mem_cons_of_mem _ hv)
    · cases hrec : Store.updateById t id b with
      | error e => simp [Store.updateById, hu, hrec] at h
      | ok r =>
        obtain ⟨d', t'⟩ := r
        simp [Store.updateById, hu, hrec] at h
        obtain ⟨hd, hs'⟩ := h
        subst hd
        subst hs'
        obtain ⟨hids, hinv'⟩ := ih t' hrec
        refine ⟨by simpa [Store.ids] using hids, ?_⟩
        intro hpw hinv v hv
        rcases List.mem_cons.mp hv with hv | hv
        · rw [hv]; exact hinv u (List.mem_cons_self _ _)
        · exact hinv' hpw (fun w hw => hinv w (List.mem_cons_of_mem _ hw)) v hv

/-- A successful delete leaves a sublist of the store. -/
theorem deleteById_ok (s : Store) (id : String) (d : User) (s' : Store)
    (h : s.deleteById id = .ok (d, s')) : List.Sublist s' s := by
  induction s generalizing s' with
  | nil => simp [Store.deleteById] at h
  | cons u t ih =>
    by_cases hu : u.id = id
    · simp [Store.deleteById, hu] at h
      rw [← h.2]
      exact List.sublist_cons_self u t
    · cases hrec : Store.deleteById t id with
      | error e => simp [Store.deleteById, hu, hrec] at h
      | ok r =>
        obtain ⟨d', t'⟩ := r
        simp [Store.deleteById, hu, hrec] at h
        obtain ⟨hd, hs'⟩ := h
        subst hd
        subst hs'
        exact List.Sublist.cons₂ u (ih t' hrec)

/-- Deleting a present Account succeeds and returns the document that the
lookup by identifier finds. -/
theorem deleteById_findById (s : Store) (id : String) (x : User)
    (hx : s.findById id = some x) :
    ∃ s', s.deleteById id = .ok (x, s') := by
  induction s with
  | nil => simp [Store.findById] at hx
  | cons u t ih =>
    by_cases hu : u.id = id
    · have hxu : x = u := by
        simp [Store.findById, List.find?_cons, hu] at hx
        exact hx.symm
      subst hxu
      exact ⟨t, by simp [Store.deleteById, hu]⟩
    · have hx' : Store.findById t id = some x := by
        simpa [Store.findById, List.find?_cons, hu] using hx
      obtain ⟨t', ht'⟩ := ih hx'
      exact ⟨u :: t', by simp [Store.deleteById, hu, ht']⟩

/-- The store after a registration is the store before it, or the state that
`save` returned for the document carrying the hash. -/
theorem registerPost_store {σ : Type} (l : Libs) (st : StoreOps σ) (s : σ)
    (req : RegisterRequest) :
    (registerPost l st s req).store = s ∨
    ∃ salt hashed s', l.genSalt 10 = .ok salt ∧
      bcryptHash l req.body.password salt = .ok hashed ∧
      st.save s (registerDoc l req hashed) = .ok s' ∧
      (registerPost l st s req).store = s' := by
  by_cases hvalid : validationResult (registerChecks l.isEmail l.skipSelectors) req.toFields = []
  · cases hfind : st.findOne s req.body.email with
    | error e =>
      left
      rw [registerPost_findOne_error l st s req e hvalid hfind]
      rfl
    | ok found =>
      cases found with
      | some u =>
        left
        rw [registerPost_duplicate l st s req u hvalid hfind]
        rfl
      | none =>
        cases hsalt : l.genSalt 10 with
        | error e =>
          left
          rw [registerPost_genSalt_error l st s req e hvalid hfind hsalt]
          rfl
        | ok salt =>
          cases hhash : bcryptHash l req.body.password salt with
          | error e =>
            left
            rw [registerPost_hash_error l st s req salt e hvalid hfind hsalt hhash]
            rfl
          | ok hashed =>
            cases hsave : st.save s (registerDoc l req hashed) with
            | error e =>
              left
              rw [registerPost_save_error l st s req salt hashed e hvalid hfind hsalt hhash
                hsave]
              rfl
            | ok s' =>
              right
              refine ⟨salt, hashed, s', rfl, hhash, hsave, ?_⟩
              rw [registerPost_saved l st s s' req salt hashed hvalid hfind hsalt hhash hsave]
              simp only [signAndRespond]
              cases l.sign l.objectId 36000 <;> rfl
  · left
    exact (registerPost_invalid l st s req hvalid).2.2

/-- The response of a registration is one of four: the violation list, the
duplicate message, the signer's token for the generated identifier, or the text
`Server error`. -/
theorem registerPost_response_shape {σ : Type} (l : Libs) (st : StoreOps σ) (s : σ)
    (req : RegisterRequest) (r : Response)
    (hr : (registerPost l st s req).response = some r) :
    r.body = .json (.errors
      (validationResult (registerChecks l.isEmail l.skipSelectors) req.toFields)) ∨
    r.body = .json (.errorMsgs ["User already exists"]) ∨
    (∃ token, l.sign l.objectId 36000 = .token token ∧ r.body = .json (.token token)) ∨
    r.body = .text "Server error" := by
  by_cases hvalid : validationResult (registerChecks l.isEmail l.skipSelectors) req.toFields = []
  · cases hfind : st.findOne s req.body.email with
    | error e =>
      rw [registerPost_findOne_error l st s req e hvalid hfind] at hr
      simp only [serverError, Option.some.injEq] at hr
      rw [← hr]
      simp
    | ok found =>
      cases found with
      | some u =>
        rw [registerPost_duplicate l st s req u hvalid hfind] at hr
        simp only [Outcome.respond, Option.some.injEq] at hr
        rw [← hr]
        simp
      | none =>
        cases hsalt : l.genSalt 10 with
        | error e =>
          rw [registerPost_genSalt_error l st s req e hvalid hfind hsalt] at hr
          simp only [serverError, Option.some.injEq] at hr
          rw [← hr]
          simp
        | ok salt =>
          cases hhash : bcryptHash l req.body.password salt with
          | error e =>
            rw [registerPost_hash_error l st s req salt e hvalid hfind hsalt hhash] at hr
            simp only [serverError, Option.some.injEq] at hr
            rw [← hr]
            simp
          | ok hashed =>
            cases hsave : st.save s (registerDoc l req hashed) with
            | error e =>
              rw [registerPost_save_error l st s req salt hashed e hvalid hfind hsalt hhash
                hsave] at hr
              simp only [serverError, Option.some.injEq] at hr
              rw [← hr]
              simp
            | ok s' =>
              rw [registerPost_saved l st s s' req salt hashed hvalid hfind hsalt hhash
                hsave] at hr
              simp only [signAndRespond] at hr
              cases hsign : l.sign l.objectId 36000 with
              | token t =>
                simp only [hsign, Outcome.respond, Option.some.injEq] at hr
                rw [← hr]
                simp
              | errDuring e =>
                simp only [hsign, serverError, Option.some.injEq] at hr
                rw [← hr]
                simp
              | errAfter e =>
                simp [hsign] at hr
  · rw [(registerPost_invalid l st s req hvalid).1] at hr
    simp only [Option.some.injEq] at hr
    rw [← hr]
    simp

/-! ## Update of the current user -/

/-- C9: for every store state, every authenticated caller X present in the store
and every request body that sets only the field `name`, after
`PUT /update-user` the store is the old store with X's document replaced by the
same document with the new name: X's other fields (identifier, email, avatar,
password, image) are unchanged and every other Account is unchanged, and the
lookup of X by identifier returns the renamed document. -/
theorem update_current_name_frame (s : Store) (callerId newName : String) (x : User)
    (hx : s.findById callerId = some x) :
    ∃ before after,
      s = before ++ x :: after ∧
      (∀ u ∈ before, u.id ≠ callerId) ∧
      (updateActiveUser memStore s callerId { name := some newName }).store =
        before ++ { x with name := some newName } :: after ∧
      Store.findById (updateActiveUser memStore s callerId { name := some newName }).store
        callerId = some { x with name := some newName } := by
  obtain ⟨before, after, hs, hbefore, hxid, hupd⟩ :=
    updateById_findById s callerId { name := some newName } x (Or.inl rfl) hx
  have hstore : (updateActiveUser memStore s callerId { name := some newName }).store =
      before ++ { x with name := some newName } :: after := by
    simp only [updateActiveUser, memStore, hupd]
    rfl
  refine ⟨before, after, hs, hbefore, hstore, ?_⟩
  rw [hstore]
  have hnone : List.find? (fun u => u.id == callerId) before = none := by
    rw [List.find?_eq_none]
    intro u hu
    simpa using hbefore u hu
  simp [Store.findById, List.find?_append, hnone, hxid]

/-- C9 witness: in the store holding Bob and Ann, Ann renames herself `"Zed"`. -/
theorem update_current_name_frame_witness :
    Store.findById [bobAccount, annAccount] "id-ann" = some annAccount ∧
    ∃ before after,
      [bobAccount, annAccount] = before ++ annAccount :: after ∧
      (∀ u ∈ before, u.id ≠ "id-ann") ∧
      (updateActiveUser memStore [bobAccount, annAccount] "id-ann" { name := some "Zed" }).store =
        before ++ { annAccount with name := some "Zed" } :: after ∧
      Store.findById
        (updateActiveUser memStore [bobAccount, annAccount] "id-ann" { name := some "Zed" }).store
        "id-ann" = some { annAccount with name := some "Zed" } :=
  ⟨by decide, update_current_name_frame [bobAccount, annAccount] "id-ann" "Zed" annAccount
    (by decide)⟩

/-! ## The Account invariant -/

/-- C6 (as stated, refuted): in a store whose only Account has a non-empty
credentialHash, `PUT /update-user/:id` with the body `{password: ""}` leaves that
Account with an empty `password` field. -/
theorem update_empties_hash_counterexample :
    hashesPresent [bobAccount] ∧
    (updateUserById memStore [bobAccount] "id-bob" { password := some "" }).store =
      [{ bobAccount with password := "" }] ∧
    ¬ hashesPresent (updateUserById memStore [bobAccount] "id-bob" { password := some "" }).store := by
  refine ⟨?_, rfl, ?_⟩
  · intro u hu
    rw [List.mem_singleton.mp hu]
    decide
  · intro h
    exact h { bobAccount with password := "" } (List.mem_singleton.mpr rfl) rfl

/-- C6 (amended): starting from a store in which every Account has a non-empty
credentialHash, (1) after a registration, with a hasher that never returns the
empty string, every Account has a non-empty credentialHash and the store is the
old one or the old one followed by the created Account; (2) after delete-by-id
the store is a sublist of the old one and every Account has a non-empty
credentialHash; (3) after update-by-id and update-current with any body the
identifiers in the store are the same, in the same order, and if the body does
not set `password` to the empty string every Account still has a non-empty
credentialHash. -/
theorem account_invariant_preserved (l : Libs) (s : Store) (hinv : hashesPresent s) :
    (∀ req, (∀ p t h, l.hash p t = .ok h → h ≠ "") →
      hashesPresent (registerPost l memStore s req).store ∧
      ((registerPost l memStore s req).store = s ∨
        ∃ u, (registerPost l memStore s req).store = s ++ [u])) ∧
    (∀ id, hashesPresent (deleteUser memStore s id).store ∧
      List.Sublist (deleteUser memStore s id).store s) ∧
    (∀ id body,
      Store.ids (updateUserById memStore s id body).store = Store.ids s ∧
      (body.password ≠ some "" → hashesPresent (updateUserById memStore s id body).store)) ∧
    (∀ callerId body,
      Store.ids (updateActiveUser memStore s callerId body).store = Store.ids s ∧
      (body.password ≠ some "" →
        hashesPresent (updateActiveUser memStore s callerId body).store)) := by
  refine ⟨?_, ?_, ?_, ?_⟩
  · intro req hhasher
    rcases registerPost_store l memStore s req with h | ⟨salt, hashed, s', _, hhash, hsave, h⟩
    · rw [h]
      exact ⟨hinv, Or.inl rfl⟩
    · rw [h]
      obtain ⟨plaintext, _, hlib⟩ := bcryptHash_ok l req.body.password salt hashed hhash
      have hs' : s' = s ++ [registerDoc l req hashed] := by
        simp only [memStore, Store.create] at hsave
        cases hfind : Store.findByEmail s (registerDoc l req hashed).email with
        | some u => simp [hfind] at hsave
        | none =>
          simp only [hfind] at hsave
          injection hsave with hsave
          exact hsave.symm
      rw [hs']
      refine ⟨?_, Or.inr ⟨_, rfl⟩⟩
      intro u hu
      rcases List.mem_append.mp hu with hu | hu
      · exact hinv u hu
      · rw [List.mem_singleton.mp hu]
        exact hhasher _ _ _ hlib
  · intro id
    have hsub : List.Sublist (deleteUser memStore s id).store s := by
      simp only [deleteUser, memStore]
      cases hdel : Store.deleteById s id with
      | error e => exact List.Sublist.refl s
      | ok r =>
        obtain ⟨d, s'⟩ := r
        exact deleteById_ok s id d s' hdel
    exact ⟨fun u hu => hinv u (hsub.subset hu), hsub⟩
  · intro id body
    simp only [updateUserById, memStore]
    cases hupd : Store.updateById s id body with
    | error e => exact ⟨rfl, fun _ => hinv⟩
    | ok r =>
      obtain ⟨d, s'⟩ := r
      obtain ⟨hids, hkeep⟩ := updateById_ok s id body d s' hupd
      exact ⟨hids, fun hpw => hkeep hpw hinv⟩
  · intro callerId body
    simp only [updateActiveUser, memStore]
    cases hupd : Store.updateById s callerId body with
    | error e => exact ⟨rfl, fun _ => hinv⟩
    | ok r =>
      obtain ⟨d, s'⟩ := r
      obtain ⟨hids, hkeep⟩ := updateById_ok s callerId body d s' hupd
      exact ⟨hids, fun hpw => hkeep hpw hinv⟩

/-- C6 witness: in the store holding Bob, an update of Bob's password to
`"hash:new"` keeps the identifiers and keeps every hash non-empty. -/
theorem account_invariant_preserved_witness :
    hashesPresent [bobAccount] ∧
    Store.ids (updateUserById memStore [bobAccount] "id-bob"
      { password := some "hash:new" }).store = Store.ids [bobAccount] ∧
    hashesPresent (updateUserById memStore [bobAccount] "id-bob"
      { password := some "hash:new" }).store :=
  have hbob : hashesPresent [bobAccount] := by
    intro u hu
    rw [List.mem_singleton.mp hu]
    decide
  have h := (account_invariant_preserved sampleLibs [bobAccount] hbob).2.2.1 "id-bob"
    { password := some "hash:new" }
  ⟨hbob, h.1, h.2 (by decide)⟩

/-! ## Exposure of the credentialHash -/

/-- On two stores that differ only in stored hashes, a registration is answered
the same. -/
theorem registerPost_response_congr (l : Libs) (req : RegisterRequest) (s₁ s₂ : Store)
    (hsame : sameExceptHash s₁ s₂) :
    (registerPost l memStore s₁ req).response = (registerPost l memStore s₂ req).response := by
  have hfound := findByEmail_isSome_congr s₁ s₂ req.body.email hsame
  by_cases hvalid : validationResult (registerChecks l.isEmail l.skipSelectors) req.toFields = []
  · cases h₁ : Store.findByEmail s₁ req.body.email with
    | some u₁ =>
      cases h₂ : Store.findByEmail s₂ req.body.email with
      | some u₂ =>
        rw [registerPost_duplicate l memStore s₁ req u₁ hvalid (by simp [memStore, h₁]),
          registerPost_duplicate l memStore s₂ req u₂ hvalid (by simp [memStore, h₂])]
        rfl
      | none => simp [h₁, h₂] at hfound
    | none =>
      cases h₂ : Store.findByEmail s₂ req.body.email with
      | some u₂ => simp [h₁, h₂] at hfound
      | none =>
        have hf₁ : memStore.findOne s₁ req.body.email = .ok none := by simp [memStore, h₁]
        have hf₂ : memStore.findOne s₂ req.body.email = .ok none := by simp [memStore, h₂]
        cases hsalt : l.genSalt 10 with
        | error e =>
          rw [registerPost_genSalt_error l memStore s₁ req e hvalid hf₁ hsalt,
            registerPost_genSalt_error l memStore s₂ req e hvalid hf₂ hsalt]
          rfl
        | ok salt =>
          cases hhash : bcryptHash l req.body.password salt with
          | error e =>
            rw [registerPost_hash_error l memStore s₁ req salt e hvalid hf₁ hsalt hhash,
              registerPost_hash_error l memStore s₂ req salt e hvalid hf₂ hsalt hhash]
            rfl
          | ok hashed =>
            have hs₁ : memStore.save s₁ (registerDoc l req hashed) =
                .ok (s₁ ++ [registerDoc l req hashed]) := by
              simp only [memStore, Store.create, registerDoc, h₁]
            have hs₂ : memStore.save s₂ (registerDoc l req hashed) =
                .ok (s₂ ++ [registerDoc l req hashed]) := by
              simp only [memStore, Store.create, registerDoc, h₂]
            rw [registerPost_saved l memStore s₁ _ req salt hashed hvalid hf₁ hsalt hhash hs₁,
              registerPost_saved l memStore s₂ _ req salt hashed hvalid hf₂ hsalt hhash hs₂]
            simp only [signAndRespond]
            cases l.sign l.objectId 36000 <;> rfl
  · rw [(registerPost_invalid l memStore s₁ req hvalid).1,
      (registerPost_invalid l memStore s₂ req hvalid).1]

/-- C5 (as stated, refuted): two store states that hold Bob's Account and differ
only in his stored credentialHash give different responses to `GET /` for Bob:
the body is the stored document, `password` field included. -/
theorem get_root_returns_hash_counterexample :
    sameExceptHash [bobAccount] [{ bobAccount with password := "hash:changed" }] ∧
    (getRoot memStore [bobAccount] "id-bob").response =
      some { status := 200, body := .json (.doc (some bobAccount)) } ∧
    (getRoot memStore [bobAccount] "id-bob").response.map Response.exposedHashes =
      some ["hash:bob"] ∧
    (getRoot memStore [bobAccount] "id-bob").response ≠
      (getRoot memStore [{ bobAccount with password := "hash:changed" }] "id-bob").response := by
  refine ⟨rfl, rfl, rfl, ?_⟩
  decide

/-- C5 (amended): no response of the registration `POST /` carries an Account
document, so it carries no `password` field, neither a stored one nor the one
just created: its body is the violation list, the duplicate message, the
signer's token for the generated identifier, or the text `Server error`; and on
two store states that differ only in stored credentialHash its response is the
same.  `GET /`, `DELETE /delete-user/:id`, `PUT /update-user/:id` and
`PUT /update-user` answer a successful store call with the document the store
returned, `password` field included; on an Account present in the store they
answer 200 with that Account's document, whose `password` field is the stored
credentialHash (for the updates: the document after the merge, whose `password`
is the one the body sets, or else the stored one). -/
theorem credential_hash_in_responses {σ : Type} (l : Libs) (st : StoreOps σ) (t : σ)
    (req : RegisterRequest) (s s₂ : Store) :
    (∀ r, (registerPost l st t req).response = some r →
      r.exposedHashes = [] ∧
      (r.body = .json (.errors
          (validationResult (registerChecks l.isEmail l.skipSelectors) req.toFields)) ∨
        r.body = .json (.errorMsgs ["User already exists"]) ∨
        (∃ token, l.sign l.objectId 36000 = .token token ∧ r.body = .json (.token token)) ∨
        r.body = .text "Server error")) ∧
    (sameExceptHash s s₂ →
      (registerPost l memStore s req).response = (registerPost l memStore s₂ req).response) ∧
    (∀ id u, st.findById t id = .ok (some u) →
      (getRoot st t id).response.map Response.exposedHashes = some [u.password]) ∧
    (∀ id u t', st.findByIdAndRemove t id = .ok (some u, t') →
      (deleteUser st t id).response.map Response.exposedHashes = some [u.password]) ∧
    (∀ id body u t', st.findByIdAndUpdate t id body = .ok (some u, t') →
      (updateUserById st t id body).response.map Response.exposedHashes =
        some [u.password] ∧
      (updateActiveUser st t id body).response.map Response.exposedHashes =
        some [u.password]) ∧
    (∀ id u, Store.findById s id = some u →
      (getRoot memStore s id).response =
        some { status := 200, body := .json (.doc (some u)) } ∧
      (getRoot memStore s id).response.map Response.exposedHashes = some [u.password] ∧
      (deleteUser memStore s id).response =
        some { status := 200, body := .json (.msgDoc (some u)) } ∧
      (deleteUser memStore s id).response.map Response.exposedHashes = some [u.password] ∧
      (∀ body, body.id = none ∨ body.id = some id →
        (updateUserById memStore s id body).response =
          some { status := 200, body := .json (.doc (some (u.set body))) } ∧
        (updateActiveUser memStore s id body).response =
          some { status := 200, body := .json (.doc (some (u.set body))) } ∧
        (updateUserById memStore s id body).response.map Response.exposedHashes =
          some [body.password.getD u.password] ∧
        (updateActiveUser memStore s id body).response.map Response.exposedHashes =
          some [body.password.getD u.password])) := by
  refine ⟨?_, registerPost_response_congr l req s s₂, ?_, ?_, ?_, ?_⟩
  · intro r hr
    have hshape := registerPost_response_shape l st t req r hr
    refine ⟨?_, hshape⟩
    rcases hshape with h | h | ⟨token, _, h⟩ | h <;>
      simp [Response.exposedHashes, Response.accounts, h]
  · intro id u hfind
    simp [getRoot, hfind, Outcome.respond, Response.exposedHashes, Response.accounts]
  · intro id u t' hdel
    simp [deleteUser, hdel, Outcome.respond, Response.exposedHashes, Response.accounts]
  · intro id body u t' hupd
    simp [updateUserById, updateActiveUser, hupd, Outcome.respond, Response.exposedHashes,
      Response.accounts]
  · intro id u hu
    obtain ⟨s', hdel⟩ := deleteById_findById s id u hu
    refine ⟨?_, ?_, ?_, ?_, ?_⟩
    · simp [getRoot, memStore, hu, Outcome.respond]
    · simp [getRoot, memStore, hu, Outcome.respond, Response.exposedHashes, Response.accounts]
    · simp [deleteUser, memStore, hdel, Outcome.respond]
    · simp [deleteUser, memStore, hdel, Outcome.respond, Response.exposedHashes,
        Response.accounts]
    · intro body hbody
      obtain ⟨before, after, _, _, _, hupd⟩ := updateById_findById s id body u hbody hu
      refine ⟨?_, ?_, ?_, ?_⟩
      · simp [updateUserById, memStore, hupd]
      · simp [updateActiveUser, memStore, hupd, Outcome.respond]
      · simp [updateUserById, memStore, hupd, Response.exposedHashes, Response.accounts,
          User.set]
      · simp [updateActiveUser, memStore, hupd, Outcome.respond, Response.exposedHashes,
          Response.accounts, User.set]

/-- C5 witness: Ann's registration on the store holding Bob is answered with the
token alone, and `GET /` for Bob answers with his document and hash. -/
theorem credential_hash_in_responses_witness :
    (registerPost sampleLibs memStore [bobAccount] annRequest).response =
      some { status := 200, body := .json (.token "jwt:id-ann") } ∧
    Response.exposedHashes { status := 200, body := .json (.token "jwt:id-ann") } = [] ∧
    Store.findById [bobAccount] "id-bob" = some bobAccount ∧
    (getRoot memStore [bobAccount] "id-bob").response.map Response.exposedHashes =
      some [bobAccount.password] :=
  have h := credential_hash_in_responses sampleLibs memStore [bobAccount] annRequest
    [bobAccount] [bobAccount]
  ⟨rfl, (h.1 { status := 200, body := .json (.token "jwt:id-ann") } rfl).1, by decide,
   (h.2.2.2.2.2 "id-bob" bobAccount (by decide)).2.1⟩

end ThyMer
